import Mathlib

set_option maxRecDepth 4000

/-!
Shallow embedding of the deployment orchestration core of the wren
monorepo (`wren_backend`): the trigger scheduler
(`core/scheduler.py`), the execution engine (`core/executor.py`), the
run ledger (`core/storage.py`), credential provisioning
(`core/credentials.py`, `integrations/registry.py`,
`integrations/__init__.py`) and the API-layer cron validator
(`api/validate.py`).

Python dictionaries are modelled as association lists with
insert-or-replace assignment; Python strings are Lean `String`s;
`datetime` values are integers (milliseconds since the epoch);
fallible library calls are modelled as `Except`-valued oracles.
-/

/-! ## Python dictionary model -/

/-- Keys of an association-list dictionary, in insertion order. -/
def dictKeys {α : Type} (m : List (String × α)) : List String :=
  m.map Prod.fst

/-- Python `d[k] = v`: replace the value in place when the key is
present, append a fresh binding otherwise. -/
def dictSet {α : Type} (m : List (String × α)) (k : String) (v : α) :
    List (String × α) :=
  if m.any (fun p => p.1 = k) then
    m.map (fun p => if p.1 = k then (k, v) else p)
  else m ++ [(k, v)]

/-- Python `d.get(k)` / `d[k]` lookup. -/
def dictGet {α : Type} (m : List (String × α)) (k : String) : Option α :=
  (m.find? (fun p => p.1 = k)).map Prod.snd

/-- Python `d.update(other)`: assign every binding of `other` into `d`,
in order. -/
def dictUpdate {α : Type} (m other : List (String × α)) :
    List (String × α) :=
  other.foldl (fun acc p => dictSet acc p.1 p.2) m

/-! ## Data model (`models/deployment.py`, `models/run.py`) -/

/-- Status of a deployment (`DeploymentStatus`). -/
inductive DeploymentStatus where
  | active | paused | error | deleted
deriving DecidableEq, Repr

/-- Type of trigger (`TriggerType`). -/
inductive TriggerType where
  | schedule | email | webhook | manual
deriving DecidableEq, Repr

/-- Configuration of one trigger (`TriggerConfig`); the event-filter
map plays no role in the scheduling core and is omitted. `cron`
defaults to `None`, `timezone` defaults to `"UTC"`. -/
structure TriggerConfig where
  cron : Option String
  timezone : String
deriving DecidableEq, Repr

/-- A trigger that initiates script execution (`Trigger`). -/
structure Trigger where
  type : TriggerType
  func : String
  config : TriggerConfig
deriving DecidableEq, Repr

/-- A deployed script with its metadata (`Deployment`); timestamps and
version are irrelevant to the scheduling claims and omitted. -/
structure Deployment where
  id : String
  user_id : String
  name : String
  script_content : String
  status : DeploymentStatus
  triggers : List Trigger
  integrations : List String
deriving DecidableEq, Repr

/-- Status of a run (`RunStatus`). -/
inductive RunStatus where
  | pending | running | success | failed | timeout | cancelled
deriving DecidableEq, Repr

/-- The terminal run statuses of the ledger state machine. -/
def RunStatus.isTerminal : RunStatus → Bool
  | .success | .failed | .timeout | .cancelled => true
  | .pending | .running => false

/-! ## Python string helpers -/

/-- Characters on which Python `str.split()` (no argument) splits. -/
def pyIsSpace (c : Char) : Bool :=
  c.isWhitespace || c = '\x0b' || c = '\x0c'

/-- Tokenizer behind the model of Python `str.split()`: walk the
characters accumulating the current token (reversed), emitting it at
each whitespace run; empty tokens never arise. -/
def splitWSAux : List Char → List Char → List (List Char)
  | [], acc => if acc = [] then [] else [acc.reverse]
  | c :: rest, acc =>
    if pyIsSpace c then
      if acc = [] then splitWSAux rest []
      else acc.reverse :: splitWSAux rest []
    else splitWSAux rest (c :: acc)

/-- Python `s.split()`: split on runs of whitespace, dropping empty
tokens. -/
def pySplit (s : String) : List String :=
  (splitWSAux s.data []).map (fun l => String.mk l)

/-- Python `s.startswith(pre)`. -/
def pyStartsWith (s pre : String) : Bool :=
  pre.data.isPrefixOf s.data

/-! ## Trigger scheduler (`core/scheduler.py`) -/

/-- One live APScheduler job as installed by `add_job` in
`register_deployment`: the parsed cron fields, the timezone, the
callback arguments `[deployment.id, "schedule", trigger.func]` and the
display name. -/
structure CronJob where
  fields : List String
  timezone : String
  deployment_id : String
  trigger_type : String
  func : String
  name : String
deriving DecidableEq, Repr

/-- The scheduler's live job set, keyed by job id. -/
abbrev Jobs : Type := List (String × CronJob)

/-- Oracle for the third-party `apscheduler.triggers.cron.CronTrigger`
constructor: given the five cron fields and the timezone it either
accepts or raises. The orchestration core treats it as opaque. -/
abbrev CronLib : Type := List String → String → Bool

/-- The `CronTrigger(minute=…, …, timezone=…)` call: returns the
constructed trigger or raises (modelled as `Except.error`). -/
def cronTriggerNew (lib : CronLib) (fields : List String)
    (timezone : String) : Except String (List String × String) :=
  if lib fields timezone then .ok (fields, timezone)
  else .error "invalid cron expression"

/-- Body of the `for trigger in deployment.triggers` loop of
`Scheduler.register_deployment`: skip non-schedule triggers, skip a
missing/empty cron string, skip a cron string without exactly five
whitespace-separated fields, hand the fields to the cron library and
on success install the job under `deployment.id ++ ":" ++ func`
(replacing any existing job with that id) and bump the counter; a
library exception is caught and the trigger skipped. -/
def register_trigger_step (lib : CronLib) (d : Deployment)
    (acc : Nat × Jobs) (t : Trigger) : Nat × Jobs :=
  if t.type = TriggerType.schedule then
    if t.config.cron = none ∨ t.config.cron = some "" then acc
    else
      let cron_expr := t.config.cron.getD ""
      let job_id := d.id ++ ":" ++ t.func
      let timezone := if t.config.timezone = "" then "UTC" else t.config.timezone
      let cron_parts := pySplit cron_expr
      if cron_parts.length = 5 then
        match cronTriggerNew lib cron_parts timezone with
        | .ok (f, tz) =>
            (acc.1 + 1,
             dictSet acc.2 job_id
               ⟨f, tz, d.id, "schedule", t.func, d.name ++ ":" ++ t.func⟩)
        | .error _ => acc
      else acc
  else acc

/-- `Scheduler.register_deployment`: fold the per-trigger step over the
deployment's triggers, starting from a zero count and the current live
job set; returns the number of triggers registered and the new job
set. -/
def register_deployment (lib : CronLib) (jobs : Jobs) (d : Deployment) :
    Nat × Jobs :=
  d.triggers.foldl (register_trigger_step lib d) (0, jobs)

/-- `scheduler.remove_job(id)`: drop the job with the given id. -/
def remove_job (jobs : Jobs) (id : String) : Jobs :=
  jobs.filter (fun j => j.1 ≠ id)

/-- `Scheduler.unregister_deployment`: iterate over a snapshot of the
live jobs and remove every job whose id starts with
`deployment_id ++ ":"`, counting removals. -/
def unregister_deployment (jobs : Jobs) (deployment_id : String) :
    Nat × Jobs :=
  jobs.foldl
    (fun acc j =>
      if pyStartsWith j.1 (deployment_id ++ ":") then
        (acc.1 + 1, remove_job acc.2 j.1)
      else acc)
    (0, jobs)

/-- A trigger on which `register_deployment` installs a job: a
schedule trigger with a nonempty cron string of exactly five fields
that the cron library accepts. -/
def trigger_installs (lib : CronLib) (t : Trigger) : Bool :=
  t.type = TriggerType.schedule &&
  !(t.config.cron = none ∨ t.config.cron = some "" : Bool) &&
  ((pySplit (t.config.cron.getD "")).length = 5 &&
   lib (pySplit (t.config.cron.getD ""))
     (if t.config.timezone = "" then "UTC" else t.config.timezone))

/-! ## Execution engine (`core/executor.py`) -/

/-- Result of a script execution (`ExecutionResult`). -/
structure ExecutionResult where
  status : RunStatus
  exit_code : Option Int
  stdout : String
  stderr : String
  error_message : Option String
deriving DecidableEq, Repr

/-- Outcome of the subprocess interaction inside `Executor.execute`,
as seen by the orchestrator: `create_subprocess_exec` raised
(`launchFailure`, the message being the exception text),
`asyncio.wait_for` raised `TimeoutError` (`timedOut`), or
`communicate()` returned the exit code and the two permissively
decoded output streams (`completed`). -/
inductive SubprocessOutcome where
  | launchFailure (msg : String)
  | timedOut
  | completed (exit_code : Int) (stdout stderr : String)
deriving DecidableEq, Repr

/-- Actions the executor performs on the child process handle. -/
inductive ProcAction where
  | kill | wait
deriving DecidableEq, Repr

/-- Body of the outer `try` block of `Executor.execute`: a launch
failure propagates as an exception (`Except.error`), a timeout is
caught by the inner `except asyncio.TimeoutError` which kills and
reaps the child, and a completed child is mapped to success or
failure by its exit code. -/
def execute_try_block (timeout_seconds : Nat)
    (outcome : SubprocessOutcome) :
    Except String (ExecutionResult × List ProcAction) :=
  match outcome with
  | .launchFailure e => .error e
  | .timedOut =>
      .ok ({ status := .timeout, exit_code := none, stdout := "",
             stderr := "",
             error_message := some ("Execution timed out after " ++
               toString timeout_seconds ++ " seconds") },
           [.kill, .wait])
  | .completed code out err =>
      if code = 0 then
        .ok ({ status := .success, exit_code := some code, stdout := out,
               stderr := err, error_message := none }, [])
      else
        .ok ({ status := .failed, exit_code := some code, stdout := out,
               stderr := err,
               error_message := some ("Script exited with code " ++
                 toString code) }, [])

/-- `Executor.execute`: the outer `except Exception` turns any escape
from the try block into a structured failed result, so the caller
always receives an `ExecutionResult`, never an exception. The second
component records the kill/reap actions taken on the child. -/
def execute (timeout_seconds : Nat) (outcome : SubprocessOutcome) :
    ExecutionResult × List ProcAction :=
  match execute_try_block timeout_seconds outcome with
  | .ok r => r
  | .error e =>
      ({ status := .failed, exit_code := none, stdout := "", stderr := e,
         error_message := some ("Failed to execute script: " ++ e) }, [])

/-- Environment handed to the child process in `Executor.execute`:
`process_env = dict(os.environ)`, then `process_env.update(_DOTENV_VARS)`,
then `process_env.update(env)`. -/
def child_process_env (ambient dotenv env : List (String × String)) :
    List (String × String) :=
  dictUpdate (dictUpdate ambient dotenv) env

/-! ## Run ledger (`core/storage.py`) -/

/-- One row of the `runs` table. Timestamps are integers
(milliseconds since the epoch). -/
structure RunRow where
  id : String
  deployment_id : String
  user_id : String
  trigger_type : String
  trigger_func : String
  status : RunStatus
  created_at : Int
  started_at : Option Int
  completed_at : Option Int
  duration_ms : Option Int
  exit_code : Option Int
  stdout : Option String
  stderr : Option String
  error_message : Option String
deriving DecidableEq, Repr

/-- `Storage.create_run`: insert a fresh pending row. -/
def create_run (table : List RunRow)
    (run_id deployment_id user_id trigger_type trigger_func : String)
    (now : Int) : List RunRow :=
  table ++ [{ id := run_id, deployment_id := deployment_id,
              user_id := user_id, trigger_type := trigger_type,
              trigger_func := trigger_func, status := .pending,
              created_at := now, started_at := none,
              completed_at := none, duration_ms := none,
              exit_code := none, stdout := none, stderr := none,
              error_message := none }]

/-- `Storage.update_run_started`: set status `running` and
`started_at` on the row with the given id. -/
def update_run_started (table : List RunRow) (run_id : String)
    (now : Int) : List RunRow :=
  table.map (fun r =>
    if r.id = run_id then { r with status := .running, started_at := some now }
    else r)

/-- `Storage.update_run_completed`: read the row's `started_at` to
derive `duration_ms`, then unconditionally update the row with the
terminal status, `completed_at` and the captured outputs. There is no
guard on the row's current status. -/
def update_run_completed (table : List RunRow) (run_id : String)
    (status : RunStatus) (exit_code : Option Int)
    (stdout stderr : String) (error_message : Option String)
    (now : Int) : List RunRow :=
  let duration_ms : Option Int :=
    match (table.find? (fun r => r.id = run_id)).bind
        (fun r => r.started_at) with
    | some s => some (now - s)
    | none => none
  table.map (fun r =>
    if r.id = run_id then
      { r with status := status, completed_at := some now,
               duration_ms := duration_ms, exit_code := exit_code,
               stdout := some stdout, stderr := some stderr,
               error_message := error_message }
    else r)

/-! ## Integration registry (`integrations/registry.py`,
`integrations/__init__.py`, `integrations/gmail.py`,
`integrations/slack.py`) -/

/-- Specification of one credential required by an integration
(`CredentialSpec`); fields irrelevant to the claims (type,
description, OAuth scopes) are omitted. -/
structure CredentialSpec where
  key : String
  env_var : String
  required : Bool
  refresh_key : Option String
  refresh_env_var : Option String
deriving DecidableEq, Repr

/-- Specification of one integration (`IntegrationSpec`). -/
structure IntegrationSpec where
  name : String
  display_name : String
  credentials : List CredentialSpec
deriving DecidableEq, Repr

/-- `IntegrationSpec.get_required_credential_keys`. -/
def IntegrationSpec.get_required_credential_keys
    (s : IntegrationSpec) : List String :=
  (s.credentials.filter (fun c => c.required)).map (fun c => c.key)

/-- `GMAIL_SPEC` as registered in `integrations/gmail.py`. -/
def GMAIL_SPEC : IntegrationSpec :=
  ⟨"gmail", "Gmail",
   [⟨"access_token", "GMAIL_ACCESS_TOKEN", true,
     some "refresh_token", some "GMAIL_REFRESH_TOKEN"⟩]⟩

/-- `SLACK_SPEC` as registered in `integrations/slack.py`. -/
def SLACK_SPEC : IntegrationSpec :=
  ⟨"slack", "Slack",
   [⟨"access_token", "SLACK_ACCESS_TOKEN", true,
     some "refresh_token", some "SLACK_REFRESH_TOKEN"⟩]⟩

/-- `MESSAGING_SPEC` as registered in `integrations/__init__.py`:
no credentials. -/
def MESSAGING_SPEC : IntegrationSpec := ⟨"messaging", "Messaging", []⟩

/-- `CRON_SPEC` as registered in `integrations/__init__.py`:
no credentials. -/
def CRON_SPEC : IntegrationSpec := ⟨"cron", "Cron", []⟩

/-- `DISCORD_SPEC` as registered in `integrations/__init__.py`. -/
def DISCORD_SPEC : IntegrationSpec :=
  ⟨"discord", "Discord",
   [⟨"bot_token", "DISCORD_BOT_TOKEN", true, none, none⟩]⟩

/-- The global `_INTEGRATION_REGISTRY` after module import: gmail and
slack register themselves on import, then messaging, cron and discord
are registered in `integrations/__init__.py`. -/
def INTEGRATION_REGISTRY : List (String × IntegrationSpec) :=
  [("gmail", GMAIL_SPEC), ("slack", SLACK_SPEC),
   ("messaging", MESSAGING_SPEC), ("cron", CRON_SPEC),
   ("discord", DISCORD_SPEC)]

/-- `get_integration`: dictionary lookup in the registry. -/
def get_integration (name : String) : Option IntegrationSpec :=
  dictGet INTEGRATION_REGISTRY name

/-! ## Credential store (`core/credentials.py`) -/

/-- One row of the `credentials` table; the pair (user_id,
integration) is unique (upsert on conflict). -/
structure CredentialRow where
  user_id : String
  integration : String
  credentials : List (String × String)
deriving DecidableEq, Repr

/-- `CredentialStore.get_credentials`: the stored credential map for
the user/integration pair, or `none` when no row exists. -/
def get_credentials (store : List CredentialRow)
    (user_id integration : String) : Option (List (String × String)) :=
  (store.find? (fun r => r.user_id = user_id && r.integration = integration)).map
    (fun r => r.credentials)

/-- `CredentialStore.has_credentials`: integrations whose spec
declares an empty credential list are always satisfied
(`if spec and not spec.credentials`); otherwise a falsy credential
record (`None` or the empty dict) yields `False`; for a registered
integration every required key must be present; an unregistered
integration with a truthy record yields `True`. -/
def has_credentials (store : List CredentialRow)
    (user_id integration : String) : Bool :=
  let spec := get_integration integration
  if (match spec with
      | some sp => sp.credentials.isEmpty
      | none => false) then true
  else
    match get_credentials store user_id integration with
    | none => false
    | some creds =>
      if creds.isEmpty then false
      else
        match spec with
        | some sp =>
            sp.get_required_credential_keys.all
              (fun k => creds.any (fun p => p.1 = k))
        | none => true

/-! ## API-layer cron validation (`api/validate.py`) -/

/-- Python `int(s)` on a `str.split()` token: optional sign followed
by a digit part in which single underscores may separate digits.
Returns `none` where Python raises `ValueError`. -/
def digitpartRest : List Char → Bool
  | [] => true
  | '_' :: [] => false
  | '_' :: c :: rest => c.isDigit && digitpartRest rest
  | c :: rest => c.isDigit && digitpartRest rest

/-- Shape check for a Python integer-literal digit part. -/
def isDigitpart : List Char → Bool
  | [] => false
  | c :: rest => c.isDigit && digitpartRest rest

/-- Numeric value of a digit part, skipping underscores. -/
def digitsVal (s : List Char) : Nat :=
  s.foldl (fun acc c => if c = '_' then acc else acc * 10 + (c.toNat - '0'.toNat)) 0

/-- Python `int(s)` for the tokens reaching it here. -/
def pyInt (s : String) : Option Int :=
  match s.data with
  | '+' :: rest => if isDigitpart rest then some (Int.ofNat (digitsVal rest)) else none
  | '-' :: rest => if isDigitpart rest then some (-(Int.ofNat (digitsVal rest))) else none
  | l => if isDigitpart l then some (Int.ofNat (digitsVal l)) else none

/-- The "wrong field count" message of `validate_cron_expression`. -/
def field_count_msg (n : Nat) : String :=
  "Cron expression must have 5 parts, got " ++ toString n

/-- The "value out of range" message of `validate_cron_expression`. -/
def range_msg (label : String) (v lo hi : Int) : String :=
  "Invalid " ++ label ++ " value: " ++ toString v ++
  " (must be " ++ toString lo ++ "-" ++ toString hi ++ ")"

/-- The invalid-step message of `validate_cron_expression`. -/
def step_msg (label part : String) : String :=
  "Invalid step value in " ++ label ++ ": " ++ part

/-- Body of the per-field loop of `validate_cron_expression`: `*`
passes, `*/n` demands an integer step at least 1, a bare integer is
checked against the field's bounds, and anything else (ranges, comma
lists) is passed through to the cron evaluator. -/
def check_cron_field (part label : String) (lo hi : Int) :
    Option String :=
  if part = "*" then none
  else if pyStartsWith part "*/" then
    match pyInt (String.mk (part.data.drop 2)) with
    | some step => if step < 1 then some (step_msg label part) else none
    | none => some (step_msg label part)
  else
    match pyInt part with
    | some val =>
        if val < lo || val > hi then some (range_msg label val lo hi)
        else none
    | none => none

/-- Field labels used in the validator's messages. -/
def cron_labels : List String :=
  ["minute", "hour", "day", "month", "day_of_week"]

/-- Per-position bounds used by the validator. -/
def cron_ranges : List (Int × Int) :=
  [(0, 59), (0, 23), (1, 31), (1, 12), (0, 6)]

/-- `validate_cron_expression`: error message, or `none` when valid.
Rejects a field count other than five outright, then returns the
first per-field error if any. -/
def validate_cron_expression (cron : String) : Option String :=
  let parts := pySplit cron
  if parts.length ≠ 5 then some (field_count_msg parts.length)
  else
    (parts.zip (cron_labels.zip cron_ranges)).findSome?
      (fun x => check_cron_field x.1 x.2.1 x.2.2.1 x.2.2.2)

/-! ## Concrete instances used to instantiate the theorems -/

/-- The job record `register_deployment` installs for a trigger. -/
def install_job (d : Deployment) (t : Trigger) : CronJob :=
  ⟨pySplit (t.config.cron.getD ""),
   (if t.config.timezone = "" then "UTC" else t.config.timezone),
   d.id, "schedule", t.func, d.name ++ ":" ++ t.func⟩

/-- Deployment used to instantiate the scheduler claim theorems. -/
def demoDeployment : Deployment :=
  { id := "dep_0a1b2c3d4e5f6071", user_id := "user_1",
    name := "daily", script_content := "def job():\n    return 1\n",
    status := .active,
    triggers :=
      [⟨.schedule, "job", ⟨some "0 9 * * *", "UTC"⟩⟩,
       ⟨.schedule, "broken", ⟨some "0 9 * *", "UTC"⟩⟩,
       ⟨.webhook, "hook", ⟨none, "UTC"⟩⟩],
    integrations := ["cron"] }

/-- A live job of the prefix-adjacent deployment `dep_ab`. -/
def demoCronJob : CronJob :=
  ⟨["0", "9", "*", "*", "*"], "UTC", "dep_ab", "schedule", "job",
   "other:job"⟩

/-- A live job set holding one job of `dep_a` and one of `dep_ab`. -/
def demoUnregJobs : Jobs :=
  [("dep_a:job",
    ⟨["0", "9", "*", "*", "*"], "UTC", "dep_a", "schedule", "job",
     "daily:job"⟩),
   ("dep_ab:job", demoCronJob)]

/-- A run row that already completed with the terminal status
`success`. -/
def demoCompletedRun : RunRow :=
  { id := "run_1", deployment_id := "dep_1", user_id := "u",
    trigger_type := "schedule", trigger_func := "job",
    status := .success, created_at := 0, started_at := some 500,
    completed_at := some 1000, duration_ms := some 500,
    exit_code := some 0, stdout := some "ok", stderr := some "",
    error_message := none }

/-- A credential store holding a record with an empty credential map
for the unregistered integration name `notion`. -/
def demoGhostStore : List CredentialRow := [⟨"u", "notion", []⟩]

/-- A deployment whose only trigger carries the out-of-range cron
string `"99 * * * *"` (minute 99). -/
def demoOutOfRangeDeployment : Deployment :=
  { id := "dep_x", user_id := "u", name := "n", script_content := "",
    status := .active,
    triggers := [⟨.schedule, "f", ⟨some "99 * * * *", "UTC"⟩⟩],
    integrations := [] }

/-! ## Dictionary lemmas -/

theorem mem_dictKeys_iff_any {α : Type} (m : List (String × α)) (k : String) :
    k ∈ dictKeys m ↔ m.any (fun p => p.1 = k) = true := by
  simp [dictKeys, List.any_eq_true, List.mem_map]

theorem dictGet_map_replace_ne {α : Type} (m : List (String × α))
    (k : String) (v : α) (k' : String) (h : k' ≠ k) :
    dictGet (m.map (fun p => if p.1 = k then (k, v) else p)) k' =
      dictGet m k' := by
  induction m with
  | nil => rfl
  | cons p rest ih =>
    by_cases hp : p.1 = k
    · simp only [List.map_cons, if_pos hp]
      rw [dictGet, dictGet, List.find?_cons, List.find?_cons]
      have h1 : (decide ((k, v).1 = k')) = false := by
        simp [Ne.symm h]
      have h2 : (decide (p.1 = k')) = false := by
        simp [hp, Ne.symm h]
      rw [h1, h2]
      exact ih
    · simp only [List.map_cons, if_neg hp]
      rw [dictGet, dictGet, List.find?_cons, List.find?_cons]
      by_cases hk' : p.1 = k'
      · simp [hk']
      · have h2 : (decide (p.1 = k')) = false := by simp [hk']
        simp only [h2]
        exact ih

theorem dictGet_map_replace_self {α : Type} (m : List (String × α))
    (k : String) (v : α) (h : m.any (fun p => p.1 = k) = true) :
    dictGet (m.map (fun p => if p.1 = k then (k, v) else p)) k =
      some v := by
  induction m with
  | nil => simp at h
  | cons p rest ih =>
    by_cases hp : p.1 = k
    · simp [dictGet, List.find?_cons, if_pos hp]
    · simp only [List.any_cons, Bool.or_eq_true, decide_eq_true_eq] at h
      rcases h with h | h
      · exact absurd h hp
      · simp only [List.map_cons, if_neg hp]
        rw [dictGet, List.find?_cons]
        have h2 : (decide (p.1 = k)) = false := by simp [hp]
        rw [h2]
        exact ih h

theorem dictGet_dictSet {α : Type} (m : List (String × α)) (k : String)
    (v : α) (k' : String) :
    dictGet (dictSet m k v) k' =
      if k' = k then some v else dictGet m k' := by
  unfold dictSet
  by_cases hm : m.any (fun p => p.1 = k) = true
  · rw [if_pos hm]
    by_cases hk : k' = k
    · subst hk
      rw [if_pos rfl]
      exact dictGet_map_replace_self m k' v hm
    · rw [if_neg hk]
      exact dictGet_map_replace_ne m k v k' hk
  · rw [if_neg hm]
    rw [dictGet, List.find?_append]
    by_cases hk : k' = k
    · subst hk
      have hnone : m.find? (fun p => decide (p.1 = k')) = none := by
        rw [List.find?_eq_none]
        intro x hx hpx
        apply hm
        rw [List.any_eq_true]
        exact ⟨x, hx, hpx⟩
      rw [if_pos rfl, hnone]
      simp [List.find?]
    · rw [if_neg hk]
      have hnone : List.find? (fun p => decide (p.1 = k')) [(k, v)] = none := by
        simp [List.find?, Ne.symm hk]
      rw [hnone]
      cases hfm : m.find? (fun p => decide (p.1 = k')) <;> simp [dictGet, hfm]

theorem dictKeys_dictSet {α : Type} (m : List (String × α)) (k : String)
    (v : α) :
    dictKeys (dictSet m k v) =
      if m.any (fun p => p.1 = k) = true then dictKeys m
      else dictKeys m ++ [k] := by
  unfold dictSet
  by_cases hm : m.any (fun p => p.1 = k) = true
  · rw [if_pos hm, if_pos hm]
    simp only [dictKeys, List.map_map]
    apply List.map_congr_left
    intro p _
    by_cases hp : p.1 = k
    · simp [hp]
    · simp [hp]
  · rw [if_neg hm, if_neg hm]
    simp [dictKeys]

theorem length_dictSet_of_mem {α : Type} (m : List (String × α))
    (k : String) (v : α) (h : k ∈ dictKeys m) :
    (dictSet m k v).length = m.length := by
  rw [mem_dictKeys_iff_any] at h
  unfold dictSet
  rw [if_pos h, List.length_map]

theorem mem_dictKeys_dictSet_self {α : Type} (m : List (String × α))
    (k : String) (v : α) : k ∈ dictKeys (dictSet m k v) := by
  rw [dictKeys_dictSet]
  by_cases hm : m.any (fun p => p.1 = k) = true
  · rw [if_pos hm]
    rw [mem_dictKeys_iff_any]
    exact hm
  · rw [if_neg hm]
    simp

theorem mem_dictKeys_dictSet_of_mem {α : Type} (m : List (String × α))
    (k k' : String) (v : α) (h : k' ∈ dictKeys m) :
    k' ∈ dictKeys (dictSet m k v) := by
  rw [dictKeys_dictSet]
  split <;> simp [h]

theorem nodup_dictKeys_dictSet {α : Type} (m : List (String × α))
    (k : String) (v : α) (h : (dictKeys m).Nodup) :
    (dictKeys (dictSet m k v)).Nodup := by
  rw [dictKeys_dictSet]
  by_cases hm : m.any (fun p => p.1 = k) = true
  · rw [if_pos hm]; exact h
  · rw [if_neg hm]
    have hk : k ∉ dictKeys m := by
      rw [mem_dictKeys_iff_any]
      simp [hm]
    simp [List.nodup_append, h, hk]

/-! ## Scheduler lemmas -/

theorem register_trigger_step_eq (lib : CronLib) (d : Deployment)
    (acc : Nat × Jobs) (t : Trigger) :
    register_trigger_step lib d acc t =
      if trigger_installs lib t = true then
        (acc.1 + 1, dictSet acc.2 (d.id ++ ":" ++ t.func) (install_job d t))
      else acc := by
  unfold register_trigger_step trigger_installs cronTriggerNew install_job
  by_cases h1 : t.type = TriggerType.schedule
  · by_cases h2 : t.config.cron = none ∨ t.config.cron = some ""
    · simp [h1, h2]
    · by_cases h3 : (pySplit (t.config.cron.getD "")).length = 5
      · by_cases h4 : lib (pySplit (t.config.cron.getD ""))
            (if t.config.timezone = "" then "UTC" else t.config.timezone) = true
        · simp [h1, h2, h3, h4]
        · simp [h1, h2, h3, h4]
      · simp [h1, h2, h3]
  · simp [h1]

theorem register_foldl_count (lib : CronLib) (d : Deployment)
    (ts : List Trigger) : ∀ (n : Nat) (jobs : Jobs),
    (ts.foldl (register_trigger_step lib d) (n, jobs)).1 =
      n + (ts.filter (trigger_installs lib)).length := by
  induction ts with
  | nil => intro n jobs; simp
  | cons t ts ih =>
    intro n jobs
    rw [List.foldl_cons, register_trigger_step_eq]
    by_cases h : trigger_installs lib t = true
    · rw [if_pos h, ih]
      simp [List.filter_cons, h]
      omega
    · rw [if_neg h, ih]
      have hb : trigger_installs lib t = false := by
        revert h; cases trigger_installs lib t <;> simp
      simp [List.filter_cons, hb]

theorem register_foldl_keys_mono (lib : CronLib) (d : Deployment)
    (ts : List Trigger) : ∀ (n : Nat) (jobs : Jobs) (k : String),
    k ∈ dictKeys jobs →
    k ∈ dictKeys (ts.foldl (register_trigger_step lib d) (n, jobs)).2 := by
  induction ts with
  | nil => intro n jobs k h; simpa using h
  | cons t ts ih =>
    intro n jobs k h
    rw [List.foldl_cons, register_trigger_step_eq]
    by_cases hin : trigger_installs lib t = true
    · rw [if_pos hin]
      exact ih _ _ _ (mem_dictKeys_dictSet_of_mem _ _ _ _ h)
    · rw [if_neg hin]
      exact ih _ _ _ h

theorem register_foldl_installs_mem (lib : CronLib) (d : Deployment)
    (ts : List Trigger) : ∀ (n : Nat) (jobs : Jobs) (t : Trigger),
    t ∈ ts → trigger_installs lib t = true →
    (d.id ++ ":" ++ t.func) ∈
      dictKeys (ts.foldl (register_trigger_step lib d) (n, jobs)).2 := by
  induction ts with
  | nil => intro n jobs t h; simp at h
  | cons t0 ts ih =>
    intro n jobs t ht hinst
    rw [List.foldl_cons, register_trigger_step_eq]
    rcases List.mem_cons.mp ht with rfl | hmem
    · rw [if_pos hinst]
      exact register_foldl_keys_mono lib d ts _ _ _
        (mem_dictKeys_dictSet_self _ _ _)
    · by_cases h0 : trigger_installs lib t0 = true
      · rw [if_pos h0]
        exact ih _ _ _ hmem hinst
      · rw [if_neg h0]
        exact ih _ _ _ hmem hinst

theorem register_foldl_length (lib : CronLib) (d : Deployment)
    (ts : List Trigger) : ∀ (n : Nat) (jobs : Jobs),
    (∀ t ∈ ts, trigger_installs lib t = true →
      (d.id ++ ":" ++ t.func) ∈ dictKeys jobs) →
    (ts.foldl (register_trigger_step lib d) (n, jobs)).2.length =
      jobs.length := by
  induction ts with
  | nil => intro n jobs _; simp
  | cons t0 ts ih =>
    intro n jobs hall
    rw [List.foldl_cons, register_trigger_step_eq]
    by_cases h0 : trigger_installs lib t0 = true
    · rw [if_pos h0]
      have hk : (d.id ++ ":" ++ t0.func) ∈ dictKeys jobs :=
        hall t0 (List.mem_cons_self _ _) h0
      rw [ih _ _ (fun t ht hi =>
        mem_dictKeys_dictSet_of_mem _ _ _ _
          (hall t (List.mem_cons_of_mem _ ht) hi))]
      exact length_dictSet_of_mem _ _ _ hk
    · rw [if_neg h0]
      exact ih _ _ (fun t ht hi => hall t (List.mem_cons_of_mem _ ht) hi)

theorem register_foldl_nodup (lib : CronLib) (d : Deployment)
    (ts : List Trigger) : ∀ (n : Nat) (jobs : Jobs),
    (dictKeys jobs).Nodup →
    (dictKeys (ts.foldl (register_trigger_step lib d) (n, jobs)).2).Nodup := by
  induction ts with
  | nil => intro n jobs h; simpa using h
  | cons t0 ts ih =>
    intro n jobs h
    rw [List.foldl_cons, register_trigger_step_eq]
    by_cases h0 : trigger_installs lib t0 = true
    · rw [if_pos h0]
      exact ih _ _ (nodup_dictKeys_dictSet _ _ _ h)
    · rw [if_neg h0]
      exact ih _ _ h

/-! ## Claim theorems: scheduler registration -/

/-- C4: `register_deployment` returns exactly the number of
schedule-type triggers whose cron configuration is accepted and
installed as a job (nonempty cron, five fields, accepted by the cron
library); malformed schedule triggers and non-schedule triggers are
skipped without aborting the loop, so they simply drop out of the
filtered count while every other trigger is still processed. -/
theorem register_deployment_count (lib : CronLib) (jobs : Jobs)
    (d : Deployment) :
    (register_deployment lib jobs d).1 =
      (d.triggers.filter (trigger_installs lib)).length := by
  rw [register_deployment, register_foldl_count]
  omega

/-- C3: registering the same deployment twice in succession leaves the
live job count unchanged (the second pass replaces each job in place),
and registration preserves the invariant that no job id is held by two
live jobs. -/
theorem register_deployment_idempotent (lib : CronLib) (jobs : Jobs)
    (d : Deployment) :
    ((register_deployment lib
        (register_deployment lib jobs d).2 d).2).length =
      ((register_deployment lib jobs d).2).length ∧
    ((dictKeys jobs).Nodup →
      (dictKeys (register_deployment lib
        (register_deployment lib jobs d).2 d).2).Nodup) := by
  constructor
  · simp only [register_deployment]
    apply register_foldl_length
    intro t ht hi
    exact register_foldl_installs_mem lib d d.triggers 0 jobs t ht hi
  · intro h
    simp only [register_deployment]
    apply register_foldl_nodup
    apply register_foldl_nodup
    exact h

/-- Witness for C3 at a concrete deployment, an empty initial job set
and a cron library that accepts everything. -/
theorem register_deployment_idempotent_witness :
    (dictKeys ([] : Jobs)).Nodup ∧
    (dictKeys (register_deployment (fun _ _ => true)
      (register_deployment (fun _ _ => true) ([] : Jobs)
        demoDeployment).2 demoDeployment).2).Nodup :=
  ⟨by decide,
   (register_deployment_idempotent (fun _ _ => true) [] demoDeployment).2
     (by decide)⟩

/-! ## Unregister lemmas -/

theorem unregister_foldl (pre : String)
    (snapshot : List (String × CronJob)) : ∀ (n : Nat) (s : Jobs),
    snapshot.foldl
      (fun acc j =>
        if pyStartsWith j.1 pre then (acc.1 + 1, remove_job acc.2 j.1)
        else acc) (n, s) =
      (n + (snapshot.filter (fun j => pyStartsWith j.1 pre)).length,
       s.filter (fun e =>
         !(snapshot.any (fun j => pyStartsWith j.1 pre && e.1 = j.1)))) := by
  induction snapshot with
  | nil => intro n s; simp
  | cons j rest ih =>
    intro n s
    rw [List.foldl_cons]
    by_cases hj : pyStartsWith j.1 pre = true
    · rw [if_pos hj, ih]
      refine Prod.ext ?_ ?_
      · simp [List.filter_cons, hj]
        omega
      · simp only [remove_job, List.filter_filter]
        apply List.filter_congr
        intro e he
        simp [List.any_cons, hj, Bool.not_or]
        exact Bool.and_comm _ _
    · rw [if_neg hj, ih]
      have hj' : pyStartsWith j.1 pre = false := by
        revert hj; cases pyStartsWith j.1 pre <;> simp
      refine Prod.ext ?_ ?_
      · simp [List.filter_cons, hj']
      · apply List.filter_congr
        intro e he
        simp [List.any_cons, hj']

theorem colon_free_startsWith {a : List Char} : ∀ {b : List Char}
    (c : List Char), ':' ∉ a → ':' ∉ b →
    (a ++ [':']).isPrefixOf (b ++ ':' :: c) = true → a = b := by
  induction a with
  | nil =>
    intro b c _ hb h
    cases b with
    | nil => rfl
    | cons y b' =>
      exfalso
      simp [List.isPrefixOf] at h
      exact hb (by rw [h]; exact List.mem_cons_self _ _)
  | cons x a' ih =>
    intro b c ha hb h
    cases b with
    | nil =>
      exfalso
      simp [List.isPrefixOf] at h
      exact ha (by rw [h.1]; exact List.mem_cons_self _ _)
    | cons y b' =>
      simp only [List.cons_append, List.isPrefixOf, Bool.and_eq_true,
        beq_iff_eq] at h
      have hxy : x = y := h.1
      have ha' : ':' ∉ a' := fun hm => ha (List.mem_cons_of_mem _ hm)
      have hb' : ':' ∉ b' := fun hm => hb (List.mem_cons_of_mem _ hm)
      have := ih c ha' hb' h.2
      rw [hxy, this]

theorem jobId_not_startsWith (A B f : String) (hA : ':' ∉ A.data)
    (hB : ':' ∉ B.data) (hne : A ≠ B) :
    pyStartsWith (B ++ ":" ++ f) (A ++ ":") = false := by
  rw [pyStartsWith]
  by_contra hcon
  have h : ((A ++ ":").data).isPrefixOf ((B ++ ":" ++ f).data) = true := by
    revert hcon
    cases ((A ++ ":").data).isPrefixOf ((B ++ ":" ++ f).data) <;> simp
  rw [String.data_append, String.data_append, String.data_append] at h
  have hcolon : (":" : String).data = [':'] := rfl
  rw [hcolon, List.append_assoc] at h
  have heq : A.data = B.data :=
    colon_free_startsWith f.data hA hB (by simpa using h)
  exact hne (String.ext heq)

theorem unregister_deployment_eq (jobs : Jobs) (A : String) :
    unregister_deployment jobs A =
      ((jobs.filter (fun j => pyStartsWith j.1 (A ++ ":"))).length,
       jobs.filter (fun j => !(pyStartsWith j.1 (A ++ ":")))) := by
  rw [unregister_deployment, unregister_foldl]
  refine Prod.ext ?_ ?_
  · simp
  · apply List.filter_congr
    intro e he
    congr 1
    cases hme : pyStartsWith e.1 (A ++ ":") with
    | true =>
      rw [List.any_eq_true]
      exact ⟨e, he, by simp [hme]⟩
    | false =>
      rw [List.any_eq_false]
      intro j hj
      simp only [Bool.and_eq_true, decide_eq_true_eq, not_and]
      intro hstart heq
      rw [heq] at hme
      rw [hme] at hstart
      cases hstart

/-- C5: `unregister_deployment` removes exactly the live jobs whose id
starts with `deployment_id ++ ":"` and returns their number (0 when
the deployment has no jobs, since the filter is empty); and when
deployment ids are colon-free (as the `dep_<hex>` generator
guarantees), every job of any other deployment — including one whose
id is a prefix-adjacent string — survives. -/
theorem unregister_deployment_spec (jobs : Jobs) (A : String) :
    (unregister_deployment jobs A).1 =
      (jobs.filter (fun j => pyStartsWith j.1 (A ++ ":"))).length ∧
    (unregister_deployment jobs A).2 =
      jobs.filter (fun j => !(pyStartsWith j.1 (A ++ ":"))) ∧
    (∀ (B f : String) (j : String × CronJob), ':' ∉ A.data →
      ':' ∉ B.data → A ≠ B → j ∈ jobs → j.1 = B ++ ":" ++ f →
      j ∈ (unregister_deployment jobs A).2) := by
  refine ⟨by rw [unregister_deployment_eq],
          by rw [unregister_deployment_eq], ?_⟩
  intro B f j hA hB hne hj hid
  rw [unregister_deployment_eq]
  rw [List.mem_filter]
  refine ⟨hj, ?_⟩
  rw [hid, jobId_not_startsWith A B f hA hB hne]
  rfl

/-- Witness for C5: unregistering `dep_a` keeps the `dep_ab` job. -/
theorem unregister_deployment_spec_witness :
    ("dep_ab:job", demoCronJob) ∈
      (unregister_deployment demoUnregJobs "dep_a").2 :=
  (unregister_deployment_spec demoUnregJobs "dep_a").2.2 "dep_ab" "job"
    ("dep_ab:job", demoCronJob) (by decide) (by decide) (by decide)
    (by decide) (by decide)

/-! ## Claim theorems: execution engine -/

/-- C7: for every subprocess outcome `execute` returns a structured
`ExecutionResult` (the totality of `execute` itself — the outer
`except Exception` turns the launch failure that escapes the try
block into a result): exit code 0 maps to `success`; a non-zero exit
code `N` maps to `failed` with error message
`"Script exited with code N"`; a launch failure maps to `failed` with
no exit code and an error message carrying the launch exception
text. -/
theorem execute_structured_result (timeout_seconds : Nat)
    (outcome : SubprocessOutcome) :
    (∀ out err, outcome = .completed 0 out err →
      (execute timeout_seconds outcome).1 =
        ⟨.success, some 0, out, err, none⟩) ∧
    (∀ code out err, outcome = .completed code out err → code ≠ 0 →
      (execute timeout_seconds outcome).1 =
        ⟨.failed, some code, out, err,
         some ("Script exited with code " ++ toString code)⟩) ∧
    (∀ e, outcome = .launchFailure e →
      (execute timeout_seconds outcome).1 =
        ⟨.failed, none, "", e,
         some ("Failed to execute script: " ++ e)⟩) := by
  refine ⟨?_, ?_, ?_⟩
  · intro out err h
    subst h
    rfl
  · intro code out err h hne
    subst h
    simp [execute, execute_try_block, hne]
  · intro e h
    subst h
    rfl

/-- Witness for C7 at a non-zero exit code and at a launch failure. -/
theorem execute_structured_result_witness :
    (execute 300 (.completed 2 "out" "err")).1 =
      ⟨.failed, some 2, "out", "err",
       some ("Script exited with code " ++ toString (2 : Int))⟩ ∧
    (execute 300 (.launchFailure "uv: not found")).1 =
      ⟨.failed, none, "", "uv: not found",
       some ("Failed to execute script: " ++ "uv: not found")⟩ :=
  ⟨(execute_structured_result 300 (.completed 2 "out" "err")).2.1
      2 "out" "err" rfl (by decide),
   (execute_structured_result 300 (.launchFailure "uv: not found")).2.2
      "uv: not found" rfl⟩

/-- C8: on a timeout the child process is killed and reaped, and
`execute` returns `status = timeout` with an error message stating the
timeout duration; the stdout/stderr of that result are the empty
best-effort strings. -/
theorem execute_timeout_kills (timeout_seconds : Nat) :
    execute timeout_seconds .timedOut =
      ({ status := .timeout, exit_code := none, stdout := "",
         stderr := "",
         error_message := some ("Execution timed out after " ++
           toString timeout_seconds ++ " seconds") },
       [.kill, .wait]) := by
  rfl

/-! ## Claim theorems: child process environment -/

/-- C1 counterexample: with the same `env` (here empty) but two
different ambient orchestrator environments, the environment visible
to the script differs, and the ambient variable `AMBIENT_SECRET` —
absent from `env` — is visible to the script. The claim that the
child environment is exactly `env` fails. -/
theorem executor_env_not_replaced :
    dictGet (child_process_env [("AMBIENT_SECRET", "s")] [] [])
      "AMBIENT_SECRET" = some "s" ∧
    dictGet (child_process_env [] [] []) "AMBIENT_SECRET" = none ∧
    dictGet ([] : List (String × String)) "AMBIENT_SECRET" = none := by
  decide

theorem dictGet_cons {α : Type} (p : String × α)
    (rest : List (String × α)) (k : String) :
    dictGet (p :: rest) k =
      if p.1 = k then some p.2 else dictGet rest k := by
  by_cases hp : p.1 = k
  · simp [dictGet, List.find?_cons, hp]
  · simp [dictGet, List.find?_cons, hp]

theorem dictGet_eq_none_iff_not_mem {α : Type} (m : List (String × α))
    (k : String) : dictGet m k = none ↔ k ∉ dictKeys m := by
  rw [dictGet, Option.map_eq_none', List.find?_eq_none,
    mem_dictKeys_iff_any]
  simp only [List.any_eq_true, decide_eq_true_eq, not_exists, not_and,
    Prod.forall]

theorem dictGet_dictUpdate_not_mem {α : Type} (other : List (String × α)) :
    ∀ (m : List (String × α)) (k : String), k ∉ dictKeys other →
    dictGet (dictUpdate m other) k = dictGet m k := by
  induction other with
  | nil => intro m k _; rfl
  | cons p rest ih =>
    intro m k hk
    have hk1 : k ≠ p.1 := by
      intro h
      exact hk (h ▸ List.mem_cons_self _ _)
    have hk2 : k ∉ dictKeys rest := by
      intro h
      exact hk (List.mem_cons_of_mem _ h)
    rw [dictUpdate, List.foldl_cons]
    have := ih (dictSet m p.1 p.2) k hk2
    rw [dictUpdate] at this
    rw [this, dictGet_dictSet, if_neg hk1]

theorem dictGet_dictUpdate_of_get {α : Type} (other : List (String × α)) :
    ∀ (m : List (String × α)) (k : String) (v : α),
    (dictKeys other).Nodup → dictGet other k = some v →
    dictGet (dictUpdate m other) k = some v := by
  induction other with
  | nil => intro m k v _ h; simp [dictGet] at h
  | cons p rest ih =>
    intro m k v hnd hget
    rw [dictGet_cons] at hget
    rw [dictUpdate, List.foldl_cons]
    have hnd' : p.1 ∉ List.map Prod.fst rest ∧
        (List.map Prod.fst rest).Nodup := by
      rw [dictKeys, List.map_cons, List.nodup_cons] at hnd
      exact hnd
    have hnd1 : p.1 ∉ dictKeys rest := hnd'.1
    by_cases hp : p.1 = k
    · rw [if_pos hp] at hget
      have hknotin : k ∉ dictKeys rest := hp ▸ hnd1
      have := dictGet_dictUpdate_not_mem rest (dictSet m p.1 p.2) k hknotin
      rw [dictUpdate] at this
      rw [this, dictGet_dictSet, if_pos (Eq.symm hp)]
      rw [← hget]
    · rw [if_neg hp] at hget
      have hndr : (dictKeys rest).Nodup := by
        rw [dictKeys, List.map_cons, List.nodup_cons] at hnd
        exact hnd.2
      exact ih (dictSet m p.1 p.2) k v hndr hget

/-- C1 amended: the child environment is the orchestrator's ambient
environment overlaid with the monorepo `.env` variables overlaid with
`env`; every binding of `env` is injected verbatim (it wins every
conflict), but a key absent from `env` resolves to the inherited
ambient/dotenv environment rather than being absent. -/
theorem child_process_env_spec (ambient dotenv env : List (String × String))
    (k : String) :
    ((dictKeys env).Nodup → ∀ v, dictGet env k = some v →
      dictGet (child_process_env ambient dotenv env) k = some v) ∧
    (dictGet env k = none →
      dictGet (child_process_env ambient dotenv env) k =
        dictGet (dictUpdate ambient dotenv) k) := by
  constructor
  · intro hnd v hget
    rw [child_process_env]
    exact dictGet_dictUpdate_of_get env _ k v hnd hget
  · intro hnone
    rw [child_process_env]
    exact dictGet_dictUpdate_not_mem env _ k
      ((dictGet_eq_none_iff_not_mem env k).mp hnone)

/-- Witness for C1 amended: an injected credential wins, an ambient
variable not shadowed by `env` is inherited. -/
theorem child_process_env_spec_witness :
    dictGet (child_process_env [("HOME", "/root")] [("API_KEY", "k1")]
      [("GMAIL_ACCESS_TOKEN", "tok")]) "GMAIL_ACCESS_TOKEN" =
      some "tok" ∧
    dictGet (child_process_env [("HOME", "/root")] [("API_KEY", "k1")]
      [("GMAIL_ACCESS_TOKEN", "tok")]) "HOME" =
      dictGet (dictUpdate [("HOME", "/root")] [("API_KEY", "k1")])
        "HOME" :=
  ⟨(child_process_env_spec [("HOME", "/root")] [("API_KEY", "k1")]
      [("GMAIL_ACCESS_TOKEN", "tok")] "GMAIL_ACCESS_TOKEN").1
      (by decide) "tok" (by decide),
   (child_process_env_spec [("HOME", "/root")] [("API_KEY", "k1")]
      [("GMAIL_ACCESS_TOKEN", "tok")] "HOME").2 (by decide)⟩

/-! ## Claim theorems: run ledger -/

/-- C2: `update_run_completed` has no terminal-state guard — calling
it again on a run that already carries the terminal status `success`
silently overwrites the whole terminal record (status, completed_at,
duration, outputs), contradicting the required no-exit-from-terminal
invariant. -/
theorem update_run_completed_overwrites_terminal :
    RunStatus.isTerminal demoCompletedRun.status = true ∧
    update_run_completed [demoCompletedRun] "run_1" .failed (some 1)
        "" "" (some "boom") 2000 =
      [{ demoCompletedRun with
         status := .failed
         completed_at := some 2000
         duration_ms := some 1500
         exit_code := some 1
         stdout := some ""
         stderr := some ""
         error_message := some "boom" }] := by
  constructor
  · rfl
  · rfl

/-! ## Claim theorems: credential provisioning -/

theorem get_integration_cases (integ : String) (sp : IntegrationSpec)
    (h : get_integration integ = some sp) :
    sp = GMAIL_SPEC ∨ sp = SLACK_SPEC ∨ sp = MESSAGING_SPEC ∨
    sp = CRON_SPEC ∨ sp = DISCORD_SPEC := by
  revert h
  rw [get_integration, INTEGRATION_REGISTRY, dictGet]
  by_cases h1 : ("gmail" : String) = integ
  · simp [List.find?, h1]
    intro h
    exact Or.inl h.symm
  · by_cases h2 : ("slack" : String) = integ
    · simp [List.find?, h1, h2]
      intro h
      exact Or.inr (Or.inl h.symm)
    · by_cases h3 : ("messaging" : String) = integ
      · simp [List.find?, h1, h2, h3]
        intro h
        exact Or.inr (Or.inr (Or.inl h.symm))
      · by_cases h4 : ("cron" : String) = integ
        · simp [List.find?, h1, h2, h3, h4]
          intro h
          exact Or.inr (Or.inr (Or.inr (Or.inl h.symm)))
        · by_cases h5 : ("discord" : String) = integ
          · simp [List.find?, h1, h2, h3, h4, h5]
            intro h
            exact Or.inr (Or.inr (Or.inr (Or.inr h.symm)))
          · simp [List.find?, h1, h2, h3, h4, h5]

theorem has_credentials_empty_creds (store : List CredentialRow)
    (user integ : String) (sp : IntegrationSpec)
    (h : get_integration integ = some sp) (he : sp.credentials = []) :
    has_credentials store user integ = true := by
  rw [has_credentials]
  simp [h, he]

theorem has_credentials_of_spec (store : List CredentialRow)
    (user integ : String) (sp : IntegrationSpec)
    (h : get_integration integ = some sp)
    (hne : sp.credentials.isEmpty = false)
    (hreq : sp.get_required_credential_keys ≠ []) :
    (has_credentials store user integ = true ↔
      ∃ creds, get_credentials store user integ = some creds ∧
        ∀ k ∈ sp.get_required_credential_keys,
          creds.any (fun p => p.1 = k) = true) := by
  rw [has_credentials]
  simp only [h]
  rw [if_neg (by simp [hne])]
  split
  · rename_i hc
    simp [hc]
  · rename_i creds hc
    by_cases hce : creds.isEmpty = true
    · rw [if_pos hce]
      simp only [Bool.false_eq_true, false_iff, not_exists, not_and]
      intro creds0 hec
      rw [hc] at hec
      have hcc : creds0 = creds := (Option.some_inj.mp hec).symm
      subst hcc
      rcases List.exists_mem_of_ne_nil _ hreq with ⟨k, hk⟩
      intro hall
      have h2 := hall k hk
      rw [List.isEmpty_iff] at hce
      subst hce
      simp at h2
    · rw [if_neg hce]
      constructor
      · intro hall
        refine ⟨creds, hc, ?_⟩
        intro k hk
        rw [List.all_eq_true] at hall
        exact hall k hk
      · rintro ⟨creds0, hec, hall⟩
        rw [hc] at hec
        have hcc : creds0 = creds := (Option.some_inj.mp hec).symm
        subst hcc
        rw [List.all_eq_true]
        exact hall

/-- C9: for every integration registered in the integration registry,
`has_credentials` returns true whenever the integration declares zero
required credential keys (in the shipped registry these are exactly
the integrations declaring no credentials at all); otherwise it
returns true precisely when a stored credential record exists for the
owner and every required key of the integration is present in it — a
partial credential set yields false. -/
theorem has_credentials_spec (store : List CredentialRow)
    (user integ : String) (sp : IntegrationSpec)
    (h : get_integration integ = some sp) :
    (sp.get_required_credential_keys = [] →
      has_credentials store user integ = true) ∧
    (sp.get_required_credential_keys ≠ [] →
      (has_credentials store user integ = true ↔
        ∃ creds, get_credentials store user integ = some creds ∧
          ∀ k ∈ sp.get_required_credential_keys,
            creds.any (fun p => p.1 = k) = true)) := by
  rcases get_integration_cases integ sp h with rfl | rfl | rfl | rfl | rfl
  · exact ⟨fun habs => absurd habs (by decide),
           fun _ => has_credentials_of_spec store user integ _ h
             (by decide) (by decide)⟩
  · exact ⟨fun habs => absurd habs (by decide),
           fun _ => has_credentials_of_spec store user integ _ h
             (by decide) (by decide)⟩
  · exact ⟨fun _ => has_credentials_empty_creds store user integ _ h rfl,
           fun habs => absurd rfl habs⟩
  · exact ⟨fun _ => has_credentials_empty_creds store user integ _ h rfl,
           fun habs => absurd rfl habs⟩
  · exact ⟨fun habs => absurd habs (by decide),
           fun _ => has_credentials_of_spec store user integ _ h
             (by decide) (by decide)⟩

/-- Witness for C9: a complete gmail credential record satisfies the
check, and the credential-free cron integration is always
satisfied. -/
theorem has_credentials_spec_witness :
    has_credentials [⟨"u", "gmail", [("access_token", "tok")]⟩]
      "u" "gmail" = true ∧
    has_credentials [] "u" "cron" = true :=
  ⟨((has_credentials_spec [⟨"u", "gmail", [("access_token", "tok")]⟩]
      "u" "gmail" GMAIL_SPEC (by decide)).2 (by decide)).mpr
      ⟨[("access_token", "tok")], by decide, by decide⟩,
   (has_credentials_spec [] "u" "cron" CRON_SPEC (by decide)).1
      (by decide)⟩

/-- C10 counterexample: for the unregistered integration `notion` a
stored credential record exists (with zero keys), yet
`has_credentials` returns false — the Python falsiness check
`if not creds` treats the empty dict like an absent record,
contradicting the claim that false is returned only when no record
exists at all. -/
theorem has_credentials_empty_record_false :
    get_integration "notion" = none ∧
    get_credentials demoGhostStore "u" "notion" = some [] ∧
    has_credentials demoGhostStore "u" "notion" = false := by
  decide

/-- C10 amended: for an integration name absent from the registry,
`has_credentials` returns true exactly when a stored credential
record with at least one key exists for that owner — no per-key
completeness check is applied; it returns false when no record
exists or the stored credential map is empty. -/
theorem has_credentials_unregistered (store : List CredentialRow)
    (user integ : String) (h : get_integration integ = none) :
    has_credentials store user integ = true ↔
      ∃ creds, get_credentials store user integ = some creds ∧
        creds ≠ [] := by
  rw [has_credentials]
  simp only [h]
  rw [if_neg (by simp)]
  split
  · rename_i hc
    simp [hc]
  · rename_i creds hc
    by_cases hce : creds.isEmpty = true
    · rw [if_pos hce]
      rw [List.isEmpty_iff] at hce
      subst hce
      simp only [Bool.false_eq_true, false_iff, not_exists, not_and]
      intro creds0 hec
      rw [hc] at hec
      have hcc : creds0 = [] := (Option.some_inj.mp hec).symm
      simp [hcc]
    · rw [if_neg hce]
      simp only [true_iff]
      refine ⟨creds, hc, ?_⟩
      intro habs
      subst habs
      simp at hce

/-- Witness for C10 amended: a one-key record for an unregistered
integration satisfies the check. -/
theorem has_credentials_unregistered_witness :
    has_credentials [⟨"u", "notion", [("api_key", "k")]⟩]
      "u" "notion" = true :=
  (has_credentials_unregistered [⟨"u", "notion", [("api_key", "k")]⟩]
      "u" "notion" (by decide)).mpr
    ⟨[("api_key", "k")], by decide, by decide⟩

/-! ## Claim theorems: cron validation -/

/-- C6 counterexample: the Scheduler performs no per-field bound check
before library-level parsing — with a cron library that accepts
everything, `register_deployment` installs a job for the cron string
`"99 * * * *"` whose minute field 99 exceeds the bound 59, instead of
rejecting it; the bound check producing the "value out of range"
message lives in the API-layer `validate_cron_expression`. -/
theorem scheduler_no_range_check :
    (register_deployment (fun _ _ => true) []
      demoOutOfRangeDeployment).1 = 1 ∧
    validate_cron_expression "99 * * * *" =
      some (range_msg "minute" 99 0 59) := by
  constructor
  · decide
  · decide

theorem validate_cron_wrong_count (cron : String)
    (h : (pySplit cron).length ≠ 5) :
    validate_cron_expression cron =
      some (field_count_msg (pySplit cron).length) := by
  simp only [validate_cron_expression]
  rw [if_pos h]

theorem validate_cron_five_fields (cron : String)
    (h : (pySplit cron).length = 5) :
    validate_cron_expression cron =
      ((pySplit cron).zip (cron_labels.zip cron_ranges)).findSome?
        (fun x => check_cron_field x.1 x.2.1 x.2.2.1 x.2.2.2) := by
  simp only [validate_cron_expression]
  rw [if_neg (by simp [h])]

theorem field_count_msg_ne_range_msg (n : Nat) (label : String)
    (v lo hi : Int) : field_count_msg n ≠ range_msg label v lo hi := by
  intro h
  have hC : (field_count_msg n).data.head? = some 'C' := by
    rw [field_count_msg, String.data_append]
    rfl
  have hI : (range_msg label v lo hi).data.head? = some 'I' := by
    rw [range_msg, String.data_append]
    rfl
  rw [h] at hC
  exact absurd (hC.symm.trans hI) (by decide)

theorem check_cron_field_star (label : String) (lo hi : Int) :
    check_cron_field "*" label lo hi = none := by
  rfl

theorem check_cron_field_step (part label : String) (lo hi : Int)
    (hss : pyStartsWith part "*/" = true) :
    (check_cron_field part label lo hi = none ↔
      ∃ k : Int, pyInt (String.mk (part.data.drop 2)) = some k ∧
        1 ≤ k) := by
  have hne : part ≠ "*" := by
    intro h
    subst h
    exact absurd hss (by decide)
  rw [check_cron_field, if_neg hne, if_pos hss]
  cases hp : pyInt (String.mk (part.data.drop 2)) with
  | none =>
    show some (step_msg label part) = none ↔
      ∃ k : Int, (none : Option Int) = some k ∧ 1 ≤ k
    apply iff_of_false
    · simp
    · rintro ⟨k, hk, _⟩
      cases hk
  | some step =>
    show (if step < 1 then some (step_msg label part) else none) =
        none ↔ ∃ k : Int, some step = some k ∧ 1 ≤ k
    by_cases hs : step < 1
    · rw [if_pos hs]
      apply iff_of_false
      · simp
      · rintro ⟨k, hk, hk1⟩
        have hks : step = k := Option.some_inj.mp hk
        omega
    · rw [if_neg hs]
      apply iff_of_true rfl
      exact ⟨step, rfl, by omega⟩

theorem check_cron_field_numeric (part label : String) (lo hi v : Int)
    (hne : part ≠ "*") (hss : pyStartsWith part "*/" = false)
    (hv : pyInt part = some v) :
    (check_cron_field part label lo hi = none ↔ lo ≤ v ∧ v ≤ hi) := by
  rw [check_cron_field, if_neg hne, if_neg (by simp [hss]), hv]
  show (if (decide (v < lo) || decide (v > hi)) = true
        then some (range_msg label v lo hi) else none) = none ↔
    lo ≤ v ∧ v ≤ hi
  cases hOr : (decide (v < lo) || decide (v > hi)) with
  | true =>
    rw [if_pos rfl]
    apply iff_of_false
    · simp
    · simp only [Bool.or_eq_true, decide_eq_true_eq] at hOr
      omega
  | false =>
    rw [if_neg (by simp)]
    apply iff_of_true rfl
    simp only [Bool.or_eq_false_iff, decide_eq_false_iff_not] at hOr
    omega

/-- C6 amended: the pre-library per-field cron validation — `*` always
accepted, `*/n` only with integer step n ≥ 1, a bare numeric bound to
its per-position range, a five-field count gate whose message differs
from the out-of-range message — is performed by the API-layer
`validate_cron_expression` (invoked at deploy time before
registration); the Scheduler itself checks only that the cron string
is present and has exactly five whitespace-separated fields, then
delegates entirely to the cron library: for a single five-field
schedule trigger the registered count is decided by the library
oracle alone. -/
theorem cron_validation_located :
    (∀ cron : String, (pySplit cron).length ≠ 5 →
      validate_cron_expression cron =
        some (field_count_msg (pySplit cron).length)) ∧
    (∀ (n : Nat) (label : String) (v lo hi : Int),
      field_count_msg n ≠ range_msg label v lo hi) ∧
    (∀ (label : String) (lo hi : Int),
      check_cron_field "*" label lo hi = none) ∧
    (∀ (part label : String) (lo hi : Int),
      pyStartsWith part "*/" = true →
      (check_cron_field part label lo hi = none ↔
        ∃ k : Int, pyInt (String.mk (part.data.drop 2)) = some k ∧
          1 ≤ k)) ∧
    (∀ (part label : String) (lo hi v : Int), part ≠ "*" →
      pyStartsWith part "*/" = false → pyInt part = some v →
      (check_cron_field part label lo hi = none ↔ lo ≤ v ∧ v ≤ hi)) ∧
    (∀ cron : String, (pySplit cron).length = 5 →
      validate_cron_expression cron =
        ((pySplit cron).zip (cron_labels.zip cron_ranges)).findSome?
          (fun x => check_cron_field x.1 x.2.1 x.2.2.1 x.2.2.2)) ∧
    (∀ (lib : CronLib) (jobs : Jobs) (d : Deployment) (t : Trigger)
      (c : String), d.triggers = [t] → t.type = TriggerType.schedule →
      t.config.cron = some c → c ≠ "" → (pySplit c).length = 5 →
      (register_deployment lib jobs d).1 =
        if lib (pySplit c)
            (if t.config.timezone = "" then "UTC"
             else t.config.timezone) then 1 else 0) := by
  refine ⟨validate_cron_wrong_count, field_count_msg_ne_range_msg,
    check_cron_field_star, check_cron_field_step,
    check_cron_field_numeric, validate_cron_five_fields, ?_⟩
  intro lib jobs d t c htr hty hcr hcne hlen
  rw [register_deployment, htr, List.foldl_cons, List.foldl_nil,
    register_trigger_step_eq]
  have hinst : trigger_installs lib t =
      lib (pySplit c)
        (if t.config.timezone = "" then "UTC" else t.config.timezone) := by
    rw [trigger_installs, hty, hcr]
    simp [hcne, hlen]
  cases hl : lib (pySplit c)
      (if t.config.timezone = "" then "UTC" else t.config.timezone) with
  | true =>
    rw [hl] at hinst
    rw [if_pos hinst]
    simp
  | false =>
    rw [hl] at hinst
    rw [if_neg (by simp [hinst])]
    simp

/-- Witness for C6 amended at concrete cron strings: a four-field
string draws the count message, `"*/0"` is rejected as a step, a
bare 99 violates the minute bound, and a five-field all-star string
validates. -/
theorem cron_validation_located_witness :
    validate_cron_expression "0 9 * *" = some (field_count_msg 4) ∧
    (check_cron_field "*/0" "minute" 0 59 = none ↔
      ∃ k : Int, pyInt (String.mk (("*/0" : String).data.drop 2)) =
        some k ∧ 1 ≤ k) ∧
    (check_cron_field "99" "minute" 0 59 = none ↔
      (0 : Int) ≤ 99 ∧ (99 : Int) ≤ 59) ∧
    (register_deployment (fun _ _ => false) []
      demoOutOfRangeDeployment).1 = 0 :=
  ⟨cron_validation_located.1 "0 9 * *" (by decide),
   cron_validation_located.2.2.2.1 "*/0" "minute" 0 59 (by decide),
   cron_validation_located.2.2.2.2.1 "99" "minute" 0 59 99
     (by decide) (by decide) (by decide),
   by
    rw [cron_validation_located.2.2.2.2.2.2 (fun _ _ => false) []
      demoOutOfRangeDeployment
      ⟨.schedule, "f", ⟨some "99 * * * *", "UTC"⟩⟩ "99 * * * *"
      rfl rfl rfl (by decide) (by decide)]
    rfl⟩
